import Mathlib

/-!
Verification of the epay-go payment-gateway integration library.

The definitions below are a shallow embedding of `epay.go`: Go strings are
Lean `String`s (byte-level operations go through their UTF-8 bytes as
`List Nat`), `uint64` is `Nat`, `int64` is `Int`, `float64` amounts are
modelled as exact rationals, `time.Time` is a plain calendar record, and
fallible operations return `Except`/`Option`.  The SHA-1, HMAC, hex and
base64 routines are translations of the Go standard-library functions the
package calls.  Mutation of a `PaymentRequest` is modelled by explicit
state passing: a Go method that mutates the receiver and returns an error
becomes a function returning the new receiver together with an
`Option String`.
-/

namespace Epay

/-! ## Bytes, 32-bit arithmetic, SHA-1, HMAC, hex -/

/-- UTF-8 encoding of one unicode code point. -/
def utf8Bytes (c : Nat) : List Nat :=
  if c < 128 then [c]
  else if c < 2048 then [192 ||| (c >>> 6), 128 ||| (c &&& 63)]
  else if c < 65536 then
    [224 ||| (c >>> 12), 128 ||| ((c >>> 6) &&& 63), 128 ||| (c &&& 63)]
  else
    [240 ||| (c >>> 18), 128 ||| ((c >>> 12) &&& 63), 128 ||| ((c >>> 6) &&& 63),
     128 ||| (c &&& 63)]

/-- The bytes of a Go string (Go strings are UTF-8 byte slices). -/
def strBytes (s : String) : List Nat :=
  s.data.foldr (fun c acc => utf8Bytes c.toNat ++ acc) []

/-- Truncation to a 32-bit word. -/
def w32 (n : Nat) : Nat := n % 4294967296

/-- 32-bit left rotation of a word `n < 2^32`. -/
def rotl32 (b n : Nat) : Nat := w32 ((n <<< b) ||| (n >>> (32 - b)))

/-- Big-endian 4-byte serialization of a 32-bit word. -/
def beBytes4 (n : Nat) : List Nat :=
  [(n >>> 24) &&& 255, (n >>> 16) &&& 255, (n >>> 8) &&& 255, n &&& 255]

/-- Big-endian 8-byte serialization of a 64-bit word. -/
def beBytes8 (n : Nat) : List Nat :=
  [(n >>> 56) &&& 255, (n >>> 48) &&& 255, (n >>> 40) &&& 255, (n >>> 32) &&& 255,
   (n >>> 24) &&& 255, (n >>> 16) &&& 255, (n >>> 8) &&& 255, n &&& 255]

/-- SHA-1 padding: `0x80`, zeros to 56 mod 64, then the 64-bit bit length. -/
def sha1Pad (msg : List Nat) : List Nat :=
  msg ++ [128] ++ List.replicate ((119 - msg.length % 64) % 64) 0 ++
    beBytes8 (msg.length * 8)

/-- Split a byte list into 64-byte chunks. -/
def chunks64 (l : List Nat) : List (List Nat) :=
  if _h : 0 < l.length then l.take 64 :: chunks64 (l.drop 64) else []
termination_by l.length
decreasing_by
  simp only [List.length_drop]
  omega

/-- The sixteen big-endian 32-bit words of a 64-byte chunk. -/
def chunkWords (c : List Nat) : List Nat :=
  (List.range 16).map (fun i =>
    ((c.getD (4 * i) 0) <<< 24) ||| ((c.getD (4 * i + 1) 0) <<< 16) |||
    ((c.getD (4 * i + 2) 0) <<< 8) ||| (c.getD (4 * i + 3) 0))

/-- Extend the 16-word schedule to 80 words. -/
def sha1ExtendW (w : List Nat) : List Nat :=
  (List.range 64).foldl (fun acc _ =>
    let i := acc.length
    acc ++ [rotl32 1 ((acc.getD (i - 3) 0) ^^^ (acc.getD (i - 8) 0) ^^^
                      (acc.getD (i - 14) 0) ^^^ (acc.getD (i - 16) 0))]) w

/-- SHA-1 round function. -/
def sha1F (i b c d : Nat) : Nat :=
  if i < 20 then (b &&& c) ||| ((b ^^^ 4294967295) &&& d)
  else if i < 40 then b ^^^ c ^^^ d
  else if i < 60 then (b &&& c) ||| (b &&& d) ||| (c &&& d)
  else b ^^^ c ^^^ d

/-- SHA-1 round constants. -/
def sha1K (i : Nat) : Nat :=
  if i < 20 then 1518500249
  else if i < 40 then 1859775393
  else if i < 60 then 2400959708
  else 3395469782

/-- One SHA-1 block compression. -/
def sha1Compress (hs : Nat × Nat × Nat × Nat × Nat) (chunk : List Nat) :
    Nat × Nat × Nat × Nat × Nat :=
  let w := sha1ExtendW (chunkWords chunk)
  let r := (List.range 80).foldl (fun st i =>
    (w32 (rotl32 5 st.1 + sha1F i st.2.1 st.2.2.1 st.2.2.2.1 + st.2.2.2.2 +
          sha1K i + w.getD i 0),
     st.1, rotl32 30 st.2.1, st.2.2.1, st.2.2.2.1))
    (hs.1, hs.2.1, hs.2.2.1, hs.2.2.2.1, hs.2.2.2.2)
  (w32 (hs.1 + r.1), w32 (hs.2.1 + r.2.1), w32 (hs.2.2.1 + r.2.2.1),
   w32 (hs.2.2.2.1 + r.2.2.2.1), w32 (hs.2.2.2.2 + r.2.2.2.2))

/-- SHA-1 digest of a byte list, as 20 bytes. -/
def sha1Digest (msg : List Nat) : List Nat :=
  let r := (chunks64 (sha1Pad msg)).foldl sha1Compress
    (1732584193, 4023233417, 2562383102, 271733878, 3285377520)
  beBytes4 r.1 ++ beBytes4 r.2.1 ++ beBytes4 r.2.2.1 ++ beBytes4 r.2.2.2.1 ++
    beBytes4 r.2.2.2.2

/-- HMAC-SHA1 (FIPS 198-1) with a 64-byte block, as in Go `crypto/hmac`. -/
def hmacSha1 (key msg : List Nat) : List Nat :=
  let k0 := if 64 < key.length then sha1Digest key else key
  let k := k0 ++ List.replicate (64 - k0.length) 0
  sha1Digest ((k.map (fun b => b ^^^ 92)) ++ sha1Digest ((k.map (fun b => b ^^^ 54)) ++ msg))

/-- Lowercase hexadecimal digit. -/
def hexDigitChar (n : Nat) : Char :=
  if n < 10 then Char.ofNat (48 + n) else Char.ofNat (87 + n)

/-- Two lowercase hex characters of one byte, as in Go `encoding/hex`. -/
def byteToHex (b : Nat) : List Char :=
  [hexDigitChar ((b >>> 4) &&& 15), hexDigitChar (b &&& 15)]

/-- Lowercase hex encoding of a byte list. -/
def bytesToHex (l : List Nat) : String :=
  ⟨l.foldr (fun b acc => byteToHex b ++ acc) []⟩

/-- The checksum computation the package performs on both directions:
`hex.EncodeToString` of `hmac.New(sha1.New, secret)` over `data`. -/
def hmacSha1Hex (secret data : String) : String :=
  bytesToHex (hmacSha1 (strBytes secret) (strBytes data))

/-! ## Base64 (standard alphabet, with padding), as in Go `encoding/base64` -/

/-- Standard base64 alphabet. -/
def b64Char (n : Nat) : Char :=
  if n < 26 then Char.ofNat (65 + n)
  else if n < 52 then Char.ofNat (97 + (n - 26))
  else if n < 62 then Char.ofNat (48 + (n - 52))
  else if n = 62 then '+' else '/'

/-- Base64 encoding of a byte list, with padding. -/
def base64Chars : List Nat → List Char
  | [] => []
  | [a] => [b64Char (a >>> 2), b64Char ((a &&& 3) <<< 4), '=', '=']
  | [a, b] => [b64Char (a >>> 2), b64Char (((a &&& 3) <<< 4) ||| (b >>> 4)),
               b64Char ((b &&& 15) <<< 2), '=']
  | a :: b :: c :: rest =>
    [b64Char (a >>> 2), b64Char (((a &&& 3) <<< 4) ||| (b >>> 4)),
     b64Char (((b &&& 15) <<< 2) ||| (c >>> 6)), b64Char (c &&& 63)] ++ base64Chars rest

/-- `base64.StdEncoding.EncodeToString` over the bytes of a string. -/
def base64Encode (s : String) : String := ⟨base64Chars (strBytes s)⟩

/-- Value of one base64 symbol. -/
def b64Val (c : Char) : Option Nat :=
  if 65 ≤ c.toNat ∧ c.toNat ≤ 90 then some (c.toNat - 65)
  else if 97 ≤ c.toNat ∧ c.toNat ≤ 122 then some (c.toNat - 97 + 26)
  else if 48 ≤ c.toNat ∧ c.toNat ≤ 57 then some (c.toNat - 48 + 52)
  else if c = '+' then some 62
  else if c = '/' then some 63
  else none

/-- Decode base64 symbols four at a time; `=` padding only in the final
quantum.  `none` models the decode error Go reports for malformed input. -/
def base64DecodeChars : List Char → Option (List Nat)
  | [] => some []
  | c1 :: c2 :: c3 :: c4 :: rest =>
    match b64Val c1, b64Val c2 with
    | some v1, some v2 =>
      if c3 = '=' ∧ c4 = '=' ∧ rest = [] then
        some [(v1 <<< 2) ||| (v2 >>> 4)]
      else if c4 = '=' ∧ rest = [] then
        match b64Val c3 with
        | some v3 => some [(v1 <<< 2) ||| (v2 >>> 4), ((v2 &&& 15) <<< 4) ||| (v3 >>> 2)]
        | none => none
      else
        match b64Val c3, b64Val c4, base64DecodeChars rest with
        | some v3, some v4, some tail =>
          some ([(v1 <<< 2) ||| (v2 >>> 4), ((v2 &&& 15) <<< 4) ||| (v3 >>> 2),
                 ((v3 &&& 3) <<< 6) ||| v4] ++ tail)
        | _, _, _ => none
    | _, _ => none
  | _ => none

/-- Interpret decoded bytes as a string.  The model covers ASCII payloads
(the gateway wire format); Go would keep arbitrary bytes in the string. -/
def asciiDecode : List Nat → Option (List Char)
  | [] => some []
  | b :: rest =>
    if b < 128 then (asciiDecode rest).map (fun cs => Char.ofNat b :: cs) else none

/-- `base64.StdEncoding.DecodeString` followed by Go `string(d)`; Go's
decoder skips CR and LF characters. -/
def base64DecodeStr (s : String) : Except String String :=
  match base64DecodeChars (s.data.filter (fun c => !(c == '\n' || c == '\r'))) with
  | none => .error ("illegal base64 data")
  | some bytes =>
    match asciiDecode bytes with
    | some cs => .ok ⟨cs⟩
    | none => .error ("non-ascii payload")

/-! ## Go time values

`time.Time` is modelled as a plain calendar record; the zero value is
January 1 of year 1, 00:00:00, as in Go. -/

structure GoTime where
  year : Nat
  month : Nat
  day : Nat
  hour : Nat
  minute : Nat
  second : Nat
deriving DecidableEq, Repr

/-- The Go zero time. -/
def zeroTime : GoTime := ⟨1, 1, 1, 0, 0, 0⟩

/-- `time.Time.IsZero`. -/
def GoTime.isZero (t : GoTime) : Bool := decide (t = zeroTime)

/-- Gregorian leap year, as in Go `time`. -/
def isLeap (y : Nat) : Bool := (y % 4 == 0 && y % 100 != 0) || y % 400 == 0

/-- Days in a month. -/
def daysInMonth (y m : Nat) : Nat :=
  if m = 2 then (if isLeap y then 29 else 28)
  else if m = 4 ∨ m = 6 ∨ m = 9 ∨ m = 11 then 30
  else 31

/-- The following calendar day. -/
def GoTime.nextDay (t : GoTime) : GoTime :=
  if t.day + 1 ≤ daysInMonth t.year t.month then { t with day := t.day + 1 }
  else if t.month + 1 ≤ 12 then { t with day := 1, month := t.month + 1 }
  else { t with day := 1, month := 1, year := t.year + 1 }

/-- `time.Time.AddDate(0, 0, n)`: add `n` calendar days. -/
def GoTime.addDays (t : GoTime) : Nat → GoTime
  | 0 => t
  | n + 1 => t.nextDay.addDays n

/-- Zero-pad a number to two digits. -/
def pad2 (n : Nat) : String := if n < 10 then "0" ++ toString n else toString n

/-- Zero-pad a number to four digits. -/
def pad4 (n : Nat) : String :=
  if n < 10 then "000" ++ toString n
  else if n < 100 then "00" ++ toString n
  else if n < 1000 then "0" ++ toString n
  else toString n

/-- `t.Format("02.01.2006 15:04:05")`: `DD.MM.YYYY HH:MM:SS`. -/
def GoTime.format (t : GoTime) : String :=
  pad2 t.day ++ "." ++ pad2 t.month ++ "." ++ pad4 t.year ++ " " ++
    pad2 t.hour ++ ":" ++ pad2 t.minute ++ ":" ++ pad2 t.second

/-- Decimal digit test. -/
def isDig (c : Char) : Bool := 48 ≤ c.toNat && c.toNat ≤ 57

/-- Value of a decimal digit character. -/
def digVal (c : Char) : Nat := c.toNat - 48

/-- `time.Parse("02.01.2006 15:04:05", s)`: the layout has fixed-width
zero-padded fields, so exactly `DD.MM.YYYY HH:MM:SS` is accepted, with the
component ranges validated.  On failure Go returns the zero time and an
error, modelled by the boolean. -/
def parseGoTime (s : String) : GoTime × Bool :=
  match s.data with
  | [a1, a2, c1, b1, b2, c2, y1, y2, y3, y4, c3, h1, h2, c4, n1, n2, c5, e1, e2] =>
    if c1 = '.' ∧ c2 = '.' ∧ c3 = ' ' ∧ c4 = ':' ∧ c5 = ':' ∧
       isDig a1 ∧ isDig a2 ∧ isDig b1 ∧ isDig b2 ∧
       isDig y1 ∧ isDig y2 ∧ isDig y3 ∧ isDig y4 ∧
       isDig h1 ∧ isDig h2 ∧ isDig n1 ∧ isDig n2 ∧ isDig e1 ∧ isDig e2 then
      let day := 10 * digVal a1 + digVal a2
      let month := 10 * digVal b1 + digVal b2
      let year := 1000 * digVal y1 + 100 * digVal y2 + 10 * digVal y3 + digVal y4
      let hour := 10 * digVal h1 + digVal h2
      let minute := 10 * digVal n1 + digVal n2
      let second := 10 * digVal e1 + digVal e2
      if 1 ≤ month ∧ month ≤ 12 ∧ 1 ≤ day ∧ day ≤ daysInMonth year month ∧
         hour < 24 ∧ minute < 60 ∧ second < 60 then
        (⟨year, month, day, hour, minute, second⟩, true)
      else (zeroTime, false)
    else (zeroTime, false)
  | _ => (zeroTime, false)

/-! ## Numeric parsing and formatting -/

/-- Accumulate decimal digits; `none` on a non-digit. -/
def parseDigits : List Char → Nat → Option Nat
  | [], acc => some acc
  | c :: rest, acc =>
    if isDig c then parseDigits rest (10 * acc + digVal c) else none

/-- `strconv.ParseUint(s, 10, 64)`.  Go returns `(0, err)` on a syntax
error and `(MaxUint64, err)` on overflow. -/
def parseUint64Go (s : String) : Nat × Bool :=
  match s.data with
  | [] => (0, false)
  | l =>
    match parseDigits l 0 with
    | none => (0, false)
    | some n =>
      if n < 18446744073709551616 then (n, true) else (18446744073709551615, false)

/-- `strconv.ParseInt(s, 10, 64)`.  Accepts an optional leading sign;
Go returns `(0, err)` on a syntax error and the clamped bound on overflow. -/
def parseInt64Go (s : String) : Int × Bool :=
  match s.data with
  | [] => (0, false)
  | '+' :: rest =>
    (match rest with
     | [] => (0, false)
     | l =>
       match parseDigits l 0 with
       | none => (0, false)
       | some n =>
         if n < 9223372036854775808 then ((n : Int), true)
         else (9223372036854775807, false))
  | '-' :: rest =>
    (match rest with
     | [] => (0, false)
     | l =>
       match parseDigits l 0 with
       | none => (0, false)
       | some n =>
         if n ≤ 9223372036854775808 then (-(n : Int), true)
         else (-9223372036854775808, false))
  | l =>
    match parseDigits l 0 with
    | none => (0, false)
    | some n =>
      if n < 9223372036854775808 then ((n : Int), true)
      else (9223372036854775807, false)

/-- The amount in cents, rounded to the nearest integer with ties to
even, as Go `fmt` rounds when formatting with `%.2f`: computed directly
on the exact numerator and denominator of `q`. -/
def centsHalfEven (q : ℚ) : ℤ :=
  let a := 100 * q.num
  let b := (q.den : ℤ)
  let f := Int.fdiv a b
  let r := a - f * b
  if 2 * r < b then f
  else if b < 2 * r then f + 1
  else if f % 2 = 0 then f else f + 1

/-- `fmt.Sprintf("%.2f", amount)` for the non-negative amounts the encoder
emits (validation rejects amounts below 0.01 before formatting). -/
def formatAmount (q : ℚ) : String :=
  let m := (centsHalfEven q).toNat
  toString (m / 100) ++ "." ++ pad2 (m % 100)

/-! ## Enums: language, currency, page type

The Go file declares these as string types with package-level values.
`LanguageFromString` and `CurrencyFromString` are Go `switch` statements
whose alias cases have empty bodies (and `case "english"` is missing its
colon).  Go switch cases do not fall through, so those arms leave the
switch and reach the end of the function, where no value is returned —
Go rejects the function at compile time.  `GoFrom.noReturn` marks those
arms. -/

inductive GoFrom (α : Type) where
  | ok (a : α)
  | err (msg : String)
  | noReturn
deriving DecidableEq, Repr

/-- Go `strings.Trim(s, " ")`: strip leading and trailing spaces. -/
def trimSpaces (s : String) : String :=
  ⟨((s.data.dropWhile (fun c => c == ' ')).reverse.dropWhile (fun c => c == ' ')).reverse⟩

/-- ASCII lowering, as Go `strings.ToLower` acts on ASCII letters. -/
def charLower (c : Char) : Char :=
  if 65 ≤ c.toNat ∧ c.toNat ≤ 90 then Char.ofNat (c.toNat + 32) else c

/-- Lowercase a string. -/
def goLower (s : String) : String := ⟨s.data.map charLower⟩

/-- The value of the variable `English`. -/
def English : String := "en"

/-- The value of the variable `Bulgarian`. -/
def Bulgarian : String := "bg"

/-- `LanguageFromString`, with Go switch semantics on its cases. -/
def LanguageFromString (l : String) : GoFrom String :=
  match trimSpaces (goLower l) with
  | "en" => .ok English
  | "bg" => .ok Bulgarian
  | "english" => .noReturn
  | "eng" => .noReturn
  | "български" => .noReturn
  | "бг" => .noReturn
  | "bulgarian" => .noReturn
  | "bul" => .noReturn
  | _ => .err ("unsupported language")

/-- The value of the variable `EUR`. -/
def EUR : String := "EUR"

/-- The value of the variable `BGN`. -/
def BGN : String := "BGN"

/-- The value of the variable `USD`. -/
def USD : String := "USD"

/-- `CurrencyFromString`, with Go switch semantics on its cases. -/
def CurrencyFromString (c : String) : GoFrom String :=
  match trimSpaces (goLower c) with
  | "euro" => .noReturn
  | "eur" => .ok EUR
  | "bgn" => .ok BGN
  | "usd" => .ok USD
  | _ => .err ("unsupported currrency")

/-- The value of the variable `Login`. -/
def Login : String := "paylogin"

/-- The value of the variable `Direct`. -/
def Direct : String := "credit_paydirect"

/-! ## PaymentRequest: encode and CalcChecksum -/

structure PaymentRequest where
  page : String
  url : String
  cin : String
  encoded : String
  checksum : String
  Currency : String
  Amount : ℚ
  Description : String
  Invoice : Nat
  ExpirationTime : GoTime
  URLOk : String
  URLCancel : String
  Language : String
deriving DecidableEq, Repr

/-- The text `encode` assembles in its local `str` before base64-encoding.
The Go function interleaves validation and appends to the local string,
but the string is discarded on every early return, so validating first
and then assembling is input-output equivalent.  Note the source emits
the description under the key `LANGUAGE` (line 102 of `epay.go`). -/
def PaymentRequest.encodePlain (p : PaymentRequest) : Except String String :=
  if p.cin = "" then .error ("CIN is empty")
  else if p.Invoice = 0 then .error ("Invoice is invalid")
  else if p.Amount < mkRat 1 100 then .error ("Amount is invalid")
  else if p.ExpirationTime.isZero then .error ("Expiration time is invalid")
  else .ok (
    "MIN=" ++ p.cin ++ "\n" ++
    "INVOICE=" ++ toString p.Invoice ++ "\n" ++
    "AMOUNT=" ++ formatAmount p.Amount ++ "\n" ++
    "EXP_TIME=" ++ p.ExpirationTime.format ++ "\n" ++
    (if p.Currency ≠ "" then "CURRENCY=" ++ p.Currency ++ "\n" else "") ++
    (if p.Language ≠ "" then "LANGUAGE=" ++ p.Language ++ "\n" else "") ++
    (if p.Description ≠ "" then "LANGUAGE=" ++ p.Description ++ "\n" else ""))

/-- `encode`: on success the single write sets `encoded`; on an early
return the receiver is untouched.  The pair is (post-state, error). -/
def PaymentRequest.encodeMut (p : PaymentRequest) : PaymentRequest × Option String :=
  match p.encodePlain with
  | .error e => (p, some e)
  | .ok str => ({ p with encoded := base64Encode str }, none)

/-- `CalcChecksum`: encode first when `encoded` is empty, wrapping an
encode failure as `encoding error: ...`; then set `checksum` to the
hex HMAC-SHA1 of `encoded` under the secret. -/
def PaymentRequest.CalcChecksum (p : PaymentRequest) (secret : String) :
    PaymentRequest × Option String :=
  if p.encoded = "" then
    match p.encodeMut with
    | (_, some e) => (p, some ("encoding error: " ++ e))
    | (p1, none) => ({ p1 with checksum := hmacSha1Hex secret p1.encoded }, none)
  else ({ p with checksum := hmacSha1Hex secret p.encoded }, none)

/-! ## API and the request builder -/

structure API where
  url : String
  cin : String
  secret : String
  defaultLanguage : String

/-- `PaymentOption`, modelled with explicit state passing. -/
def PaymentOption : Type := PaymentRequest → Except String PaymentRequest

/-- `WithExpirationTime`: rejects an explicitly supplied zero time. -/
def WithExpirationTime (t : GoTime) : PaymentOption := fun p =>
  if t.isZero then .error ("invalid time") else .ok { p with ExpirationTime := t }

/-- `WithLanguage`. -/
def WithLanguage (l : String) : PaymentOption := fun p =>
  .ok { p with Language := l }

/-- `WithCurrency`. -/
def WithCurrency (c : String) : PaymentOption := fun p =>
  .ok { p with Currency := c }

/-- `WithPage`. -/
def WithPage (pg : String) : PaymentOption := fun p =>
  .ok { p with page := pg }

/-- Apply options in order, aborting on the first failure. -/
def applyOptions : PaymentRequest → List PaymentOption → Except String PaymentRequest
  | p, [] => .ok p
  | p, o :: rest =>
    match o p with
    | .error e => .error e
    | .ok q => applyOptions q rest

/-- The request `NewPaymentRequest` builds before applying options:
direct-card page, EUR, English, expiration seven days from now. -/
def defaultRequest (api : API) (now : GoTime) (amount : ℚ) (description : String)
    (invoice : Nat) : PaymentRequest :=
  { page := "credit_paydirect"
    url := api.url
    cin := api.cin
    encoded := ""
    checksum := ""
    Currency := EUR
    Amount := amount
    Description := description
    Invoice := invoice
    ExpirationTime := now.addDays 7
    URLOk := ""
    URLCancel := ""
    Language := English }

/-- `API.NewPaymentRequest`; `now` stands for `time.Now()`.  On an option
failure the Go code returns `(nil, err)`: no request escapes. -/
def NewPaymentRequest (api : API) (now : GoTime) (amount : ℚ) (description : String)
    (invoice : Nat) (options : List PaymentOption) : Except String PaymentRequest :=
  applyOptions (defaultRequest api now amount description invoice) options

/-! ## Callback processing -/

structure Payment where
  Invoice : Nat
  Status : String
  PayDate : GoTime
  Stan : Int
  Bcode : String
deriving DecidableEq, Repr

/-- The zero `Payment{}` literal. -/
def payZero : Payment := { Invoice := 0, Status := "", PayDate := zeroTime, Stan := 0, Bcode := "" }

/-- The result of the user-supplied `PaymentHandlerFunc`: `nil`, the
`ErrInvalidInvoice` sentinel, or any other error. -/
inductive HandlerResult where
  | ok
  | invalidInvoice
  | otherError (msg : String)
deriving DecidableEq

/-- What the HTTP handler writes back: an `http.Error` reply (message and
status code), a runtime panic (index out of range), or the 200 answer. -/
inductive CallbackReply where
  | httpError (msg : String) (code : Nat)
  | crash
  | answer (body : String)
deriving DecidableEq, Repr

/-- Go `strings.Split` with a one-character separator: split on every
occurrence, keeping empty fields; never returns an empty list. -/
def splitOnCharAux (sep : Char) : List Char → List Char → List String
  | [], acc => [⟨acc.reverse⟩]
  | c :: rest, acc =>
    if c = sep then (⟨acc.reverse⟩ : String) :: splitOnCharAux sep rest []
    else splitOnCharAux sep rest (c :: acc)

/-- `strings.Split(s, sep)` for a one-character separator. -/
def goSplit (s : String) (sep : Char) : List String := splitOnCharAux sep s.data []

/-- One iteration of the record loop: split the record on every `=`,
dispatch on `e[0]`, and read `e[1]`.  When `e` has a single element and
the key is recognized, the Go code indexes `e[1]` out of range: a runtime
panic, modelled as `none`.  A failed numeric or time parse logs, sets the
status flag to `ERR`, and still stores the parsed zero/clamped value. -/
def parseRecord (payment : Payment) (status : String) (part : String) :
    Option (Payment × String) :=
  let e := goSplit part '='
  match e.headD "" with
  | "INVOICE" =>
    match e[1]? with
    | none => none
    | some v =>
      match parseUint64Go v with
      | (i, true) => some ({ payment with Invoice := i }, status)
      | (i, false) => some ({ payment with Invoice := i }, "ERR")
  | "STATUS" =>
    match e[1]? with
    | none => none
    | some v => some ({ payment with Status := v }, status)
  | "PAY_TIME" =>
    match e[1]? with
    | none => none
    | some v =>
      match parseGoTime v with
      | (t, true) => some ({ payment with PayDate := t }, status)
      | (t, false) => some ({ payment with PayDate := t }, "ERR")
  | "STAN" =>
    match e[1]? with
    | none => none
    | some v =>
      match parseInt64Go v with
      | (n, true) => some ({ payment with Stan := n }, status)
      | (n, false) => some ({ payment with Stan := n }, "ERR")
  | "BCODE" =>
    match e[1]? with
    | none => none
    | some v => some ({ payment with Bcode := v }, status)
  | _ => some (payment, status)

/-- The record loop over all parts. -/
def parseCallbackParts : Payment → String → List String → Option (Payment × String)
  | payment, status, [] => some (payment, status)
  | payment, status, part :: rest =>
    match parseRecord payment status part with
    | none => none
    | some (p1, s1) => parseCallbackParts p1 s1 rest

/-- Parse a decoded callback payload: split on newlines and run the
record loop from the zero `Payment` and an empty status flag.  `none`
models the out-of-range panic. -/
def parseCallbackData (data : String) : Option (Payment × String) :=
  parseCallbackParts payZero "" (goSplit data '\n')

/-- The tail of the callback handler, after checksum verification and
base64 decoding: parse, invoke the handler unless the status flag is
`ERR`, map its result to `OK`/`NO`/`ERR`, and format the answer line. -/
def callbackCore (data : String) (f : Payment → HandlerResult) : CallbackReply :=
  match parseCallbackData data with
  | none => .crash
  | some (payment, status0) =>
    let status :=
      if status0 ≠ "ERR" then
        match f payment with
        | .ok => "OK"
        | .invalidInvoice => "NO"
        | .otherError _ => "ERR"
      else status0
    .answer ("INVOICE=" ++ toString payment.Invoice ++ ":STATUS=" ++ status ++ "\n")

/-- Go `fmt`'s `%q` of a string; no escaping arises for the hex and test
strings this development quotes. -/
def goQuote (s : String) : String := "\x22" ++ s ++ "\x22"

/-- `API.PaymentCallbackHandler`: reject non-POST, verify the checksum
against the recomputed HMAC (replying through `http.Error` on mismatch,
before anything is decoded or any handler runs), base64-decode, then run
`callbackCore`. -/
def PaymentCallbackHandler (secret : String) (f : Payment → HandlerResult)
    (method : String) (encoded checksum : String) : CallbackReply :=
  if method ≠ "POST" then .httpError ("invalid method") 400
  else if checksum ≠ hmacSha1Hex secret encoded then
    .httpError ("invalid checksum " ++ goQuote checksum) 400
  else
    match base64DecodeStr encoded with
    | .error e => .httpError ("decoding error: " ++ e) 400
    | .ok data => callbackCore data f

/-- The outbound checksum, as the spec names it: the hex HMAC-SHA1 of the
data under the secret — the computation `CalcChecksum` performs. -/
def sign (data secret : String) : String := hmacSha1Hex secret data

/-- The inbound verification: the callback handler recomputes the
checksum and compares the strings for exact equality. -/
def verify (data secret candidate : String) : Bool :=
  candidate == sign data secret

/-! ## Concrete fixtures used by the witnesses and evaluations -/

/-- A valid request with a non-empty description and no optional
currency/language, for evaluating the encoder. -/
def reqDesc : PaymentRequest :=
  { page := "", url := "", cin := "1", encoded := "", checksum := "",
    Currency := "", Amount := 1, Description := "test", Invoice := 1,
    ExpirationTime := ⟨2024, 3, 5, 14, 30, 0⟩, URLOk := "", URLCancel := "",
    Language := "" }

/-- A request valid except possibly for its amount. -/
def reqAt (amount : ℚ) : PaymentRequest :=
  { page := "", url := "", cin := "x", encoded := "", checksum := "",
    Currency := "", Amount := amount, Description := "", Invoice := 1,
    ExpirationTime := ⟨2024, 3, 5, 14, 30, 0⟩, URLOk := "", URLCancel := "",
    Language := "" }

/-- A concrete API client. -/
def api0 : API :=
  { url := "https://demo.epay.bg/", cin := "D123", secret := "s", defaultLanguage := "en" }

/-- A concrete instant standing for `time.Now()`. -/
def now0 : GoTime := ⟨2024, 3, 5, 14, 30, 0⟩

/-! ## Helper lemmas -/

theorem sha1Digest_length (msg : List Nat) : (sha1Digest msg).length = 20 := by
  simp [sha1Digest, beBytes4]

theorem hmacSha1_length (key msg : List Nat) : (hmacSha1 key msg).length = 20 := by
  simp [hmacSha1, sha1Digest_length]

theorem bytesToHex_data (b : Nat) (t : List Nat) :
    (bytesToHex (b :: t)).data = byteToHex b ++ (bytesToHex t).data := rfl

theorem bytesToHex_length (l : List Nat) : (bytesToHex l).length = 2 * l.length := by
  induction l with
  | nil => rfl
  | cons b t ih =>
    show (bytesToHex (b :: t)).data.length = 2 * (b :: t).length
    rw [bytesToHex_data]
    simp only [List.length_append, List.length_cons]
    have ht : (bytesToHex t).data.length = 2 * t.length := ih
    simp only [byteToHex, List.length_cons, List.length_nil]
    omega

theorem hmacSha1Hex_length (secret data : String) : (hmacSha1Hex secret data).length = 40 := by
  show (bytesToHex (hmacSha1 (strBytes secret) (strBytes data))).length = 40
  rw [bytesToHex_length, hmacSha1_length]

theorem hexDigitChar_mem : ∀ n < 16, hexDigitChar n ∈ ("0123456789abcdef").data := by decide

theorem byteToHex_mem (b : Nat) : ∀ c ∈ byteToHex b, c ∈ ("0123456789abcdef").data := by
  intro c hc
  have h4 : (b >>> 4) &&& 15 < 16 := Nat.lt_succ_of_le Nat.and_le_right
  have h0 : b &&& 15 < 16 := Nat.lt_succ_of_le Nat.and_le_right
  simp only [byteToHex, List.mem_cons, List.not_mem_nil, or_false] at hc
  rcases hc with h | h
  · exact h ▸ hexDigitChar_mem _ h4
  · exact h ▸ hexDigitChar_mem _ h0

theorem bytesToHex_mem (l : List Nat) :
    ∀ c ∈ (bytesToHex l).data, c ∈ ("0123456789abcdef").data := by
  induction l with
  | nil => intro c hc; exact absurd hc (List.not_mem_nil c)
  | cons b t ih =>
    intro c hc
    rw [bytesToHex_data] at hc
    rcases List.mem_append.mp hc with h | h
    · exact byteToHex_mem b c h
    · exact ih c h

theorem applyOptions_append (l1 l2 : List PaymentOption) : ∀ p,
    applyOptions p (l1 ++ l2) =
      match applyOptions p l1 with
      | Except.error e => Except.error e
      | Except.ok q => applyOptions q l2 := by
  induction l1 with
  | nil => intro p; rfl
  | cons o t ih =>
    intro p
    show (match o p with
          | Except.error e => Except.error e
          | Except.ok q => applyOptions q (t ++ l2)) = _
    cases h : o p with
    | error e => simp [applyOptions, h]
    | ok q => simp [applyOptions, h, ih q]

theorem appendChunk (a t x y : String) (h : x = y) : a ++ (t ++ x) = a ++ (t ++ y) := by
  rw [h]

theorem callbackCore_parsed (data : String) (f : Payment → HandlerResult)
    (payment : Payment) (flag : String)
    (hp : parseCallbackData data = some (payment, flag)) :
    callbackCore data f =
      .answer ("INVOICE=" ++ toString payment.Invoice ++ ":STATUS=" ++
        (if flag ≠ "ERR" then
          (match f payment with
           | .ok => "OK"
           | .invalidInvoice => "NO"
           | .otherError _ => "ERR")
         else flag) ++ "\n") := by
  unfold callbackCore
  rw [hp]

/-! ## The claims -/

/-- C1 (corrected): on a checksum mismatch the callback processor never
invokes the payment handler — the reply is the same for every handler —
but the reply is an `http.Error` with status 400 and the message
`invalid checksum "<received>"`, not the claimed `INVOICE=0:STATUS=ERR`
answer line. -/
theorem checksum_mismatch_rejects_before_handler
    (secret encoded checksum : String) (f g : Payment → HandlerResult)
    (h : checksum ≠ hmacSha1Hex secret encoded) :
    PaymentCallbackHandler secret f ("POST") encoded checksum =
      CallbackReply.httpError ("invalid checksum " ++ goQuote checksum) 400 ∧
    PaymentCallbackHandler secret f ("POST") encoded checksum =
      PaymentCallbackHandler secret g ("POST") encoded checksum := by
  have key : ∀ fh : Payment → HandlerResult,
      PaymentCallbackHandler secret fh ("POST") encoded checksum =
        CallbackReply.httpError ("invalid checksum " ++ goQuote checksum) 400 := by
    intro fh
    unfold PaymentCallbackHandler
    rw [if_neg (by simp), if_pos h]
  exact ⟨key f, (key f).trans (key g).symm⟩

/-- Witness for C1: a concrete rejected callback (the empty checksum can
never equal the 40-character HMAC hex). -/
theorem checksum_mismatch_rejects_before_handler_witness :
    PaymentCallbackHandler ("s") (fun _ => HandlerResult.ok) ("POST") ("e") ("") =
      CallbackReply.httpError ("invalid checksum " ++ goQuote ("")) 400 := by
  have hlen := hmacSha1Hex_length ("s") ("e")
  exact (checksum_mismatch_rejects_before_handler ("s") ("e") ("")
    (fun _ => HandlerResult.ok) (fun _ => HandlerResult.invalidInvoice)
    (by intro heq; rw [← heq] at hlen; exact absurd hlen (by decide))).1

/-- Counterexample for C1 as stated: at a concrete mismatching callback
the reply body is not the `INVOICE=0:STATUS=ERR` line. -/
theorem checksum_mismatch_reply_counterexample :
    ("" : String) ≠ hmacSha1Hex ("s") ("e") ∧
    PaymentCallbackHandler ("s") (fun _ => HandlerResult.ok) ("POST") ("e") ("") ≠
      CallbackReply.answer ("INVOICE=0:STATUS=ERR\n") := by
  have hlen := hmacSha1Hex_length ("s") ("e")
  have hne : ("" : String) ≠ hmacSha1Hex ("s") ("e") := by
    intro heq; rw [← heq] at hlen; exact absurd hlen (by decide)
  refine ⟨hne, ?_⟩
  unfold PaymentCallbackHandler
  rw [if_neg (by simp), if_pos hne]
  simp

/-- C2 (code bug): the record loop panics on a record that has a
recognized key but no equals sign (`e[1]` is out of range), and it
splits on every `=`, so a `BCODE=a=b` record stores only `a`. -/
theorem callback_parse_crash_eval :
    parseCallbackData ("INVOICE") = none ∧
    parseCallbackData ("STATUS") = none ∧
    parseCallbackData ("BCODE=a=b") = some ({ payZero with Bcode := "a" }, "") := by
  refine ⟨by decide, by decide, by decide⟩

/-- C3 (code bug): a valid request whose description is `test` encodes
its description under the key `LANGUAGE`, not `DESCRIPTION`; base64
decoding the produced `encoded` recovers exactly that text. -/
theorem encode_description_under_language_key :
    reqDesc.encodePlain =
      .ok ("MIN=1\nINVOICE=1\nAMOUNT=1.00\nEXP_TIME=05.03.2024 14:30:00\nLANGUAGE=test\n") ∧
    (reqDesc.encodeMut).1.encoded =
      base64Encode ("MIN=1\nINVOICE=1\nAMOUNT=1.00\nEXP_TIME=05.03.2024 14:30:00\nLANGUAGE=test\n") ∧
    base64DecodeStr ((reqDesc.encodeMut).1.encoded) =
      .ok ("MIN=1\nINVOICE=1\nAMOUNT=1.00\nEXP_TIME=05.03.2024 14:30:00\nLANGUAGE=test\n") :=
  ⟨rfl, rfl, rfl⟩

/-- C4 (confirmed): the signature is the 40-character lowercase-hex
HMAC-SHA1 of the data under the secret; verification is exact string
equality, so the signature verifies and any other candidate fails. -/
theorem sign_verify_roundtrip (data secret : String) :
    (sign data secret).length = 40 ∧
    (∀ c ∈ (sign data secret).data, c ∈ ("0123456789abcdef").data) ∧
    verify data secret (sign data secret) = true ∧
    (∀ candidate, candidate ≠ sign data secret → verify data secret candidate = false) := by
  refine ⟨hmacSha1Hex_length secret data, bytesToHex_mem _, ?_, ?_⟩
  · simp [verify]
  · intro cand hne
    simp [verify, hne]

/-- Witness for C4 at a concrete pair. -/
theorem sign_verify_roundtrip_witness :
    verify ("d") ("s") (sign ("d") ("s")) = true ∧ verify ("d") ("s") ("") = false := by
  have h := sign_verify_roundtrip ("d") ("s")
  refine ⟨h.2.2.1, h.2.2.2 ("") ?_⟩
  intro heq
  have hl := h.1
  rw [← heq] at hl
  exact absurd hl (by decide)

/-- C5 (confirmed): once a callback is verified, decoded and parsed, a
clean parse invokes the handler and maps its result to OK / NO (the
invalid-invoice sentinel) / ERR, a tainted parse skips the handler with
status ERR, and the reply body is exactly `INVOICE=<n>:STATUS=<s>\n`. -/
theorem callback_reply_status_mapping (data : String) (f : Payment → HandlerResult)
    (payment : Payment) (flag : String)
    (hp : parseCallbackData data = some (payment, flag)) :
    (flag = "ERR" →
      callbackCore data f =
        CallbackReply.answer ("INVOICE=" ++ toString payment.Invoice ++ ":STATUS=ERR\n") ∧
      (∀ g, callbackCore data g = callbackCore data f)) ∧
    (flag ≠ "ERR" →
      (f payment = .ok →
        callbackCore data f =
          CallbackReply.answer ("INVOICE=" ++ toString payment.Invoice ++ ":STATUS=OK\n")) ∧
      (f payment = .invalidInvoice →
        callbackCore data f =
          CallbackReply.answer ("INVOICE=" ++ toString payment.Invoice ++ ":STATUS=NO\n")) ∧
      (∀ m, f payment = .otherError m →
        callbackCore data f =
          CallbackReply.answer ("INVOICE=" ++ toString payment.Invoice ++ ":STATUS=ERR\n"))) := by
  constructor
  · intro hflag
    subst hflag
    constructor
    · rw [callbackCore_parsed data f payment ("ERR") hp]
      simp [String.append_assoc]
    · intro g
      rw [callbackCore_parsed data g payment ("ERR") hp,
          callbackCore_parsed data f payment ("ERR") hp]
      simp
  · intro hflag
    refine ⟨fun hf => ?_, fun hf => ?_, fun m hf => ?_⟩ <;>
      rw [callbackCore_parsed data f payment flag hp] <;>
      simp [hflag, hf, String.append_assoc] <;>
      exact appendChunk _ _ _ _ rfl

/-- Witness for C5: a concrete verified payload with a succeeding
handler replies `INVOICE=55:STATUS=OK`. -/
theorem callback_reply_status_mapping_witness :
    callbackCore ("INVOICE=55\nSTATUS=PAID\n") (fun _ => HandlerResult.ok) =
      CallbackReply.answer ("INVOICE=55:STATUS=OK\n") := by
  have h := (callback_reply_status_mapping ("INVOICE=55\nSTATUS=PAID\n")
    (fun _ => HandlerResult.ok) ⟨55, "PAID", zeroTime, 0, ""⟩ ("") (by decide)).2 (by decide)
  exact (h.1 rfl).trans (by decide)

/-- C6 (confirmed): `encode` rejects an empty cin, a zero invoice, an
amount below 0.01 and a zero expiration time, in that order, touching
nothing on failure and succeeding otherwise; 0.01 is accepted, 0.005 is
rejected, and amounts are rendered with exactly two decimals. -/
theorem encode_validation (p : PaymentRequest) :
    (p.cin = "" → p.encodeMut = (p, some ("CIN is empty"))) ∧
    (p.cin ≠ "" → p.Invoice = 0 → p.encodeMut = (p, some ("Invoice is invalid"))) ∧
    (p.cin ≠ "" → p.Invoice ≠ 0 → p.Amount < mkRat 1 100 →
      p.encodeMut = (p, some ("Amount is invalid"))) ∧
    (p.cin ≠ "" → p.Invoice ≠ 0 → ¬(p.Amount < mkRat 1 100) →
      p.ExpirationTime.isZero = true →
      p.encodeMut = (p, some ("Expiration time is invalid"))) ∧
    (p.cin ≠ "" → p.Invoice ≠ 0 → ¬(p.Amount < mkRat 1 100) →
      p.ExpirationTime.isZero = false → (p.encodeMut).2 = none) ∧
    ((reqAt (mkRat 1 100)).encodeMut).2 = none ∧
    (reqAt (mkRat 1 200)).encodeMut = (reqAt (mkRat 1 200), some ("Amount is invalid")) ∧
    formatAmount (mkRat 25 2) = "12.50" ∧
    formatAmount 12 = "12.00" := by
  refine ⟨?_, ?_, ?_, ?_, ?_, by decide, by decide, by decide, by decide⟩
  · intro h1
    simp [PaymentRequest.encodeMut, PaymentRequest.encodePlain, h1]
  · intro h1 h2
    simp [PaymentRequest.encodeMut, PaymentRequest.encodePlain, h1, h2]
  · intro h1 h2 h3
    simp [PaymentRequest.encodeMut, PaymentRequest.encodePlain, h1, h2, h3]
  · intro h1 h2 h3 h4
    simp [PaymentRequest.encodeMut, PaymentRequest.encodePlain, h1, h2, h3, h4]
  · intro h1 h2 h3 h4
    simp [PaymentRequest.encodeMut, PaymentRequest.encodePlain, h1, h2, h3, h4]

/-- Witness for C6 at a request with an empty cin. -/
theorem encode_validation_witness :
    ({ reqAt 1 with cin := "" } : PaymentRequest).encodeMut =
      ({ reqAt 1 with cin := "" }, some ("CIN is empty")) :=
  (encode_validation ({ reqAt 1 with cin := "" })).1 rfl

/-- C7 (confirmed): with no options the builder returns the defaults —
direct-card page, EUR, English, expiration seven days from now; options
apply in order with a failing option aborting the build with its error
and no request; a later option overrides an earlier one. -/
theorem builder_defaults_and_option_order (api : API) (now : GoTime) (amount : ℚ)
    (description : String) (invoice : Nat) :
    NewPaymentRequest api now amount description invoice [] =
      .ok (defaultRequest api now amount description invoice) ∧
    (defaultRequest api now amount description invoice).page = Direct ∧
    (defaultRequest api now amount description invoice).Currency = EUR ∧
    (defaultRequest api now amount description invoice).Language = English ∧
    (defaultRequest api now amount description invoice).ExpirationTime = now.addDays 7 ∧
    (∀ opts1 o opts2 e q,
      applyOptions (defaultRequest api now amount description invoice) opts1 = .ok q →
      o q = .error e →
      NewPaymentRequest api now amount description invoice (opts1 ++ o :: opts2) =
        .error e) ∧
    (∀ c1 c2,
      NewPaymentRequest api now amount description invoice
          [WithCurrency c1, WithCurrency c2] =
        .ok { defaultRequest api now amount description invoice with Currency := c2 }) := by
  refine ⟨rfl, rfl, rfl, rfl, by simp [defaultRequest], ?_, ?_⟩
  · intro opts1 o opts2 e q hq ho
    unfold NewPaymentRequest
    rw [applyOptions_append, hq]
    show (match o q with
          | Except.error e => Except.error e
          | Except.ok r => applyOptions r opts2) = _
    rw [ho]
  · intro c1 c2
    simp [NewPaymentRequest, applyOptions, WithCurrency]

/-- Witness for C7: an explicitly supplied zero expiration time aborts
the build with the option error. -/
theorem builder_defaults_and_option_order_witness :
    NewPaymentRequest api0 now0 1 ("d") 7 [WithExpirationTime zeroTime] =
      .error ("invalid time") := by
  have h := (builder_defaults_and_option_order api0 now0 1 ("d") 7).2.2.2.2.2.1
  exact h [] (WithExpirationTime zeroTime) [] ("invalid time")
    (defaultRequest api0 now0 1 ("d") 7) rfl rfl

/-- C9 (confirmed): computing a checksum with no encoded payload first
runs the encoder; an encoder failure is returned wrapped as
`encoding error: ...` with the request untouched, and a success yields
the checksum over the fresh encoding. -/
theorem calcChecksum_wraps_encode_error (p : PaymentRequest) (secret e : String) :
    (p.encoded = "" → (p.encodeMut).2 = some e →
      p.CalcChecksum secret = (p, some ("encoding error: " ++ e))) ∧
    (p.encoded = "" → ∀ p1, p.encodeMut = (p1, none) →
      p.CalcChecksum secret =
        ({ p1 with checksum := hmacSha1Hex secret p1.encoded }, none)) := by
  constructor
  · intro h he
    unfold PaymentRequest.CalcChecksum
    rw [if_pos h]
    rcases hm : p.encodeMut with ⟨p1, r⟩
    rw [hm] at he
    have hr : r = some e := he
    subst hr
    rfl
  · intro h p1 hm
    unfold PaymentRequest.CalcChecksum
    rw [if_pos h, hm]

/-- Witness for C9: a request with an empty cin and no encoding yields
the wrapped encoder error. -/
theorem calcChecksum_wraps_encode_error_witness :
    ({ reqAt 1 with cin := "" } : PaymentRequest).CalcChecksum ("sec") =
      ({ reqAt 1 with cin := "" }, some ("encoding error: CIN is empty")) :=
  (calcChecksum_wraps_encode_error ({ reqAt 1 with cin := "" }) ("sec")
    ("CIN is empty")).1 rfl (by decide)

/-- C10 (confirmed): when `encode` fails, every validation has happened
before the single write to `encoded`, so the request — in particular its
`encoded` and `checksum` fields — is unchanged. -/
theorem encode_error_leaves_request_unchanged (p p1 : PaymentRequest) (e : String)
    (h : p.encodeMut = (p1, some e)) :
    p1 = p ∧ p1.encoded = p.encoded ∧ p1.checksum = p.checksum := by
  unfold PaymentRequest.encodeMut at h
  cases hp : p.encodePlain with
  | error e2 =>
    rw [hp] at h
    injection h with h1 h2
    exact ⟨h1.symm, by rw [h1], by rw [h1]⟩
  | ok str =>
    rw [hp] at h
    injection h with h1 h2
    exact absurd h2 (by simp)

/-- Witness for C10 at a request with an empty cin. -/
theorem encode_error_leaves_request_unchanged_witness :
    (({ reqAt 1 with cin := "" } : PaymentRequest).encodeMut).1 =
      { reqAt 1 with cin := "" } :=
  (encode_error_leaves_request_unchanged ({ reqAt 1 with cin := "" })
    ((({ reqAt 1 with cin := "" } : PaymentRequest).encodeMut).1) ("CIN is empty")
    (by decide)).1

/-- C8 (code bug): with Go switch semantics the alias arms of
`LanguageFromString` and `CurrencyFromString` have empty bodies, so
every alias other than the two-letter codes and `eur`/`bgn`/`usd` falls
out of the switch and returns nothing, while unknown strings reach the
default error arm. -/
theorem enum_alias_parse_eval :
    LanguageFromString ("english") = .noReturn ∧
    LanguageFromString ("eng") = .noReturn ∧
    LanguageFromString ("en") = .ok English ∧
    LanguageFromString (" EN ") = .ok English ∧
    LanguageFromString ("bulgarian") = .noReturn ∧
    LanguageFromString ("bul") = .noReturn ∧
    LanguageFromString ("bg") = .ok Bulgarian ∧
    LanguageFromString ("xx") = .err ("unsupported language") ∧
    CurrencyFromString ("euro") = .noReturn ∧
    CurrencyFromString ("eur") = .ok EUR ∧
    CurrencyFromString (" EUR ") = .ok EUR ∧
    CurrencyFromString ("bgn") = .ok BGN ∧
    CurrencyFromString ("usd") = .ok USD ∧
    CurrencyFromString ("gbp") = .err ("unsupported currrency") := by
  decide

end Epay
